import Mathlib

/-!
Verification of `test-cpu-load.py`, a synthetic CPU load generator.

The program has two functions:

* `cpu_intensive_work(duration_seconds)` — computes `end_time = time.time()
  + duration_seconds`, then loops `while time.time() < end_time`, each pass
  adding `sqrt(i)*sin(i)*cos(i)` for `i in range(10000)` to an accumulator
  `result` that starts at `0`, and finally returns `result`.
* `main()` — prints two banner lines, sets `cycle = 0`, then loops forever:
  increment `cycle`, print the HIGH CPU line, flush, call
  `cpu_intensive_work(5)`, print the LOW CPU line, flush, sleep 5, print the
  IDLE line, flush, sleep 5.

We embed the clock as the list of successive values returned by
`time.time()`, and the driver as a deterministic small-step machine over an
explicit program counter, recording an event trace (prints, flushes, the
blocking burn and sleep calls).
-/

namespace CpuLoadTest

/-- Clock readings, durations and the float accumulator live in an ordered
commutative ring `α` (the floats of Python are a totally ordered number line for
the orderings the program uses; instantiating `α := ℚ` models fractional
times, `α := ℤ` gives concrete executable witnesses).  The per-pass batch
total `Σ_{i<10000} sqrt(i)*sin(i)*cos(i)` is a fixed floating-point
constant whose numeric value no claim depends on, so the embedding carries
it as a parameter `S`. -/
def batchCount : ℕ := 10000

variable {α : Type} [LinearOrderedCommRing α]

/-- The `while time.time() < end_time` loop of `cpu_intensive_work`.
`ts` are the readings `time.time()` will return at the successive loop-guard
checks, `acc` is `result`, `n` counts completed batch passes.  Returns
`some (result, exit reading, passes)` when a reading at or past `endTime`
is reached, `none` if the reading list is exhausted first (a run in which
the loop was still going). -/
def burnLoop (S endTime : α) : List α → α → ℕ → Option (α × α × ℕ)
  | [], _, _ => none
  | t :: ts, acc, n =>
    if t < endTime then burnLoop S endTime ts (acc + S) (n + 1)
    else some (acc, t, n)

/-- `cpu_intensive_work(duration_seconds)`: the head of `clock` is the
`time.time()` reading taken to form `end_time`; the rest are the readings
at the loop-guard checks.  Besides the returned `result` we expose the exit
reading and the number of batch passes as ghost observations. -/
def cpu_intensive_work (S duration : α) (clock : List α) :
    Option (α × α × ℕ) :=
  match clock with
  | [] => none
  | t0 :: ts => burnLoop S (t0 + duration) ts 0 0

/-- Adjacent clock readings advance by at most `B` (the wall-clock cost of
one loop pass, i.e. one batch, bounds the gap between consecutive
`time.time()` calls). -/
def gapsWithin (B : α) : List α → Bool
  | a :: b :: rest => decide (b ≤ a + B) && gapsWithin B (b :: rest)
  | _ => true

/-- Clock readings never decrease (real time is monotone). -/
def monotoneClock : List α → Bool
  | a :: b :: rest => decide (a ≤ b) && monotoneClock (b :: rest)
  | _ => true

/-- Observable actions of the driver: a `print` call, a `sys.stdout.flush()`
call, the blocking `cpu_intensive_work` call and the blocking `time.sleep`
call (durations in seconds). -/
inductive Event where
  | print (s : String)
  | flush
  | burn (d : ℕ)
  | sleep (d : ℕ)
deriving DecidableEq, Repr

/-- First banner line of `main`. -/
def bannerLine1 : String := "🔥 CPU Load Test Container Started"

/-- Second banner line of `main`: `"=" * 50`. -/
def bannerLine2 : String := String.mk (List.replicate 50 '=')

/-- The HIGH CPU status line, `f"\n[Cycle {cycle}] 🚀 HIGH CPU - Working hard..."`. -/
def highLine (c : ℕ) : String :=
  "\n[Cycle " ++ toString c ++ "] 🚀 HIGH CPU - Working hard..."

/-- The LOW CPU status line, `f"[Cycle {cycle}] 😴 LOW CPU - Resting..."`. -/
def lowLine (c : ℕ) : String :=
  "[Cycle " ++ toString c ++ "] 😴 LOW CPU - Resting..."

/-- The IDLE status line, `f"[Cycle {cycle}] 💤 IDLE - Sleeping..."`. -/
def idleLine (c : ℕ) : String :=
  "[Cycle " ++ toString c ++ "] 💤 IDLE - Sleeping..."

/-- State of `main`: a program counter locating the next statement, the
`cycle` variable, and the trace of events emitted so far (oldest first). -/
structure DriverState where
  pc : ℕ
  cycle : ℕ
  trace : List Event
deriving DecidableEq, Repr

/-- One statement of `main`.  Program-counter map (line numbers of the
source): 0 ↦ line 21 first banner print, 1 ↦ line 22 second banner print,
2 ↦ line 26 `cycle += 1`, 3–5 ↦ lines 29–31 (HIGH print, flush, burn 5),
6–8 ↦ lines 34–36 (LOW print, flush, sleep 5), 9–11 ↦ lines 39–41 (IDLE
print, flush, sleep 5), then back to the loop head at pc 2. -/
def step (s : DriverState) : DriverState :=
  match s.pc with
  | 0 => { s with pc := 1, trace := s.trace ++ [.print bannerLine1] }
  | 1 => { s with pc := 2, trace := s.trace ++ [.print bannerLine2] }
  | 2 => { s with pc := 3, cycle := s.cycle + 1 }
  | 3 => { s with pc := 4, trace := s.trace ++ [.print (highLine s.cycle)] }
  | 4 => { s with pc := 5, trace := s.trace ++ [.flush] }
  | 5 => { s with pc := 6, trace := s.trace ++ [.burn 5] }
  | 6 => { s with pc := 7, trace := s.trace ++ [.print (lowLine s.cycle)] }
  | 7 => { s with pc := 8, trace := s.trace ++ [.flush] }
  | 8 => { s with pc := 9, trace := s.trace ++ [.sleep 5] }
  | 9 => { s with pc := 10, trace := s.trace ++ [.print (idleLine s.cycle)] }
  | 10 => { s with pc := 11, trace := s.trace ++ [.flush] }
  | _ => { s with pc := 2, trace := s.trace ++ [.sleep 5] }

/-- Initial state of `main`: about to print the first banner, `cycle = 0`,
nothing emitted. -/
def init : DriverState := ⟨0, 0, []⟩

/-- The driver state after `n` executed statements. -/
def run (n : ℕ) : DriverState := step^[n] init

/-- The events one loop iteration with cycle number `c` emits, in program
order. -/
def bodyEvents (c : ℕ) : List Event :=
  [.print (highLine c), .flush, .burn 5,
   .print (lowLine c), .flush, .sleep 5,
   .print (idleLine c), .flush, .sleep 5]

/-- The full event trace after the banner and `k` completed loop
iterations. -/
def fullTrace (k : ℕ) : List Event :=
  [.print bannerLine1, .print bannerLine2] ++
    (List.range k).flatMap (fun j => bodyEvents (j + 1))

/-- All strings passed to `print`, in order. -/
def allPrints (t : List Event) : List String :=
  t.filterMap (fun e => match e with | .print s => some s | _ => none)

/-- The cycle status lines among the prints: every print that is not one of
the two banner lines. -/
def statusLines (t : List Event) : List String :=
  t.filterMap (fun e =>
    match e with
    | .print s => if s = bannerLine1 ∨ s = bannerLine2 then none else some s
    | _ => none)

/-- The statements of `main` as a transition relation, one constructor per
statement of the source, mirroring `step`.  No constructor leaves the
`while True` loop: from the loop tail (pc 11) control returns to the loop
head (pc 2). -/
inductive Stmt : DriverState → DriverState → Prop where
  | banner1 (c t) : Stmt ⟨0, c, t⟩ ⟨1, c, t ++ [.print bannerLine1]⟩
  | banner2 (c t) : Stmt ⟨1, c, t⟩ ⟨2, c, t ++ [.print bannerLine2]⟩
  | incr (c t) : Stmt ⟨2, c, t⟩ ⟨3, c + 1, t⟩
  | printHigh (c t) : Stmt ⟨3, c, t⟩ ⟨4, c, t ++ [.print (highLine c)]⟩
  | flushHigh (c t) : Stmt ⟨4, c, t⟩ ⟨5, c, t ++ [.flush]⟩
  | burnHigh (c t) : Stmt ⟨5, c, t⟩ ⟨6, c, t ++ [.burn 5]⟩
  | printLow (c t) : Stmt ⟨6, c, t⟩ ⟨7, c, t ++ [.print (lowLine c)]⟩
  | flushLow (c t) : Stmt ⟨7, c, t⟩ ⟨8, c, t ++ [.flush]⟩
  | sleepLow (c t) : Stmt ⟨8, c, t⟩ ⟨9, c, t ++ [.sleep 5]⟩
  | printIdle (c t) : Stmt ⟨9, c, t⟩ ⟨10, c, t ++ [.print (idleLine c)]⟩
  | flushIdle (c t) : Stmt ⟨10, c, t⟩ ⟨11, c, t ++ [.flush]⟩
  | sleepIdle (c t) : Stmt ⟨11, c, t⟩ ⟨2, c, t ++ [.sleep 5]⟩

/-- Stdout-buffer discipline: starting from buffered-but-unflushed lines
`buf`, walk the events; a `print` buffers its line, a `flush` empties the
buffer, and the check demands the buffer be empty whenever a blocking
event (`burn` or `sleep`) begins. -/
def flushedBeforeBlocking : List String → List Event → Bool
  | _, [] => true
  | buf, .print s :: es => flushedBeforeBlocking (buf ++ [s]) es
  | _, .flush :: es => flushedBeforeBlocking [] es
  | buf, .burn _ :: es => buf.isEmpty && flushedBeforeBlocking buf es
  | buf, .sleep _ :: es => buf.isEmpty && flushedBeforeBlocking buf es

theorem step_eq_0 (c : ℕ) (t : List Event) :
    step ⟨0, c, t⟩ = ⟨1, c, t ++ [.print bannerLine1]⟩ := rfl

theorem step_eq_1 (c : ℕ) (t : List Event) :
    step ⟨1, c, t⟩ = ⟨2, c, t ++ [.print bannerLine2]⟩ := rfl

theorem step_eq_2 (c : ℕ) (t : List Event) :
    step ⟨2, c, t⟩ = ⟨3, c + 1, t⟩ := rfl

theorem step_eq_3 (c : ℕ) (t : List Event) :
    step ⟨3, c, t⟩ = ⟨4, c, t ++ [.print (highLine c)]⟩ := rfl

theorem step_eq_4 (c : ℕ) (t : List Event) :
    step ⟨4, c, t⟩ = ⟨5, c, t ++ [.flush]⟩ := rfl

theorem step_eq_5 (c : ℕ) (t : List Event) :
    step ⟨5, c, t⟩ = ⟨6, c, t ++ [.burn 5]⟩ := rfl

theorem step_eq_6 (c : ℕ) (t : List Event) :
    step ⟨6, c, t⟩ = ⟨7, c, t ++ [.print (lowLine c)]⟩ := rfl

theorem step_eq_7 (c : ℕ) (t : List Event) :
    step ⟨7, c, t⟩ = ⟨8, c, t ++ [.flush]⟩ := rfl

theorem step_eq_8 (c : ℕ) (t : List Event) :
    step ⟨8, c, t⟩ = ⟨9, c, t ++ [.sleep 5]⟩ := rfl

theorem step_eq_9 (c : ℕ) (t : List Event) :
    step ⟨9, c, t⟩ = ⟨10, c, t ++ [.print (idleLine c)]⟩ := rfl

theorem step_eq_10 (c : ℕ) (t : List Event) :
    step ⟨10, c, t⟩ = ⟨11, c, t ++ [.flush]⟩ := rfl

theorem step_eq_11 (c : ℕ) (t : List Event) :
    step ⟨11, c, t⟩ = ⟨2, c, t ++ [.sleep 5]⟩ := rfl

theorem run_succ (n : ℕ) : run (n + 1) = step (run n) :=
  Function.iterate_succ_apply' step n init

theorem step_body (c : ℕ) (t : List Event) :
    step^[10] ⟨2, c, t⟩ = ⟨2, c + 1, t ++ bodyEvents (c + 1)⟩ := by
  rw [show (10 : ℕ) = 1 + 1 + 1 + 1 + 1 + 1 + 1 + 1 + 1 + 1 by rfl]
  simp only [Function.iterate_add_apply, Function.iterate_one]
  simp only [step_eq_2, step_eq_3, step_eq_4, step_eq_5, step_eq_6,
    step_eq_7, step_eq_8, step_eq_9, step_eq_10, step_eq_11]
  simp [bodyEvents]

theorem fullTrace_succ (k : ℕ) :
    fullTrace (k + 1) = fullTrace k ++ bodyEvents (k + 1) := by
  simp [fullTrace, List.range_succ]

theorem run_loop_head (k : ℕ) : run (2 + 10 * k) = ⟨2, k, fullTrace k⟩ := by
  induction k with
  | zero =>
    show step (step init) = _
    simp [init, step_eq_0, step_eq_1, fullTrace]
  | succ k ih =>
    have h : 2 + 10 * (k + 1) = 10 + (2 + 10 * k) := by ring
    rw [run, h, Function.iterate_add_apply, ← run, ih, step_body,
      fullTrace_succ]

theorem burnLoop_spec (S e : α) :
    ∀ (ts : List α) (acc : α) (m : ℕ) (r t : α) (n : ℕ),
      burnLoop S e ts acc m = some (r, t, n) →
      ∃ j, n = m + j ∧ r = acc + j * S ∧ e ≤ t := by
  intro ts
  induction ts with
  | nil => intro acc m r t n h; simp [burnLoop] at h
  | cons a ts ih =>
    intro acc m r t n h
    rw [burnLoop] at h
    by_cases hc : a < e
    · rw [if_pos hc] at h
      obtain ⟨j, hn, hr, ht⟩ := ih _ _ _ _ _ h
      refine ⟨j + 1, by omega, ?_, ht⟩
      rw [hr]; push_cast; ring
    · rw [if_neg hc] at h
      obtain ⟨rfl, rfl, rfl⟩ : acc = r ∧ a = t ∧ m = n := by simpa using h
      exact ⟨0, by omega, by push_cast; ring, not_lt.mp hc⟩

theorem burnLoop_exit_bound (S e B : α) :
    ∀ (ts : List α) (prev acc : α) (m : ℕ) (r t : α) (n : ℕ),
      prev ≤ e → gapsWithin B (prev :: ts) = true →
      burnLoop S e ts acc m = some (r, t, n) →
      t ≤ e + B := by
  intro ts
  induction ts with
  | nil => intro prev acc m r t n _ _ h; simp [burnLoop] at h
  | cons a ts ih =>
    intro prev acc m r t n hpe hg h
    rw [burnLoop] at h
    have hga : a ≤ prev + B ∧ gapsWithin B (a :: ts) = true := by
      simpa [gapsWithin] using hg
    by_cases hc : a < e
    · rw [if_pos hc] at h
      exact ih a _ _ _ _ _ (le_of_lt hc) hga.2 h
    · rw [if_neg hc] at h
      obtain ⟨-, rfl, -⟩ : acc = r ∧ a = t ∧ m = n := by simpa using h
      linarith [hga.1]

theorem cpu_result_eq (S d : α) (clock : List α) (r t : α) (n : ℕ)
    (h : cpu_intensive_work S d clock = some (r, t, n)) : r = n * S := by
  match clock with
  | [] => simp [cpu_intensive_work] at h
  | t0 :: ts =>
    rw [cpu_intensive_work] at h
    obtain ⟨j, hn, hr, -⟩ := burnLoop_spec S (t0 + d) ts 0 0 r t n h
    have hj : j = n := by omega
    subst hj
    simpa using hr

/-- C1: for `d ≥ 0`, `cpu_intensive_work` computes the deadline `t0 + d`
from the clock at entry, loops batches while the clock is before the
deadline, and exits only at a clock reading at or past the deadline, so it
returns no earlier than `d` seconds after it is called; when consecutive
clock readings advance by at most `B` (the execution time of one batch), the
overrun is bounded by `B`; the returned accumulator is `n` batches worth
(the caller discards it — see the driver model, where the `burn` event
carries no value). -/
theorem burn_returns_after_deadline
    (S d B t0 : α) (ts : List α) (r t : α) (n : ℕ)
    (hd : 0 ≤ d) (hB : gapsWithin B (t0 :: ts) = true)
    (h : cpu_intensive_work S d (t0 :: ts) = some (r, t, n)) :
    t0 + d ≤ t ∧ t ≤ t0 + d + B ∧ r = n * S := by
  have hr := cpu_result_eq S d (t0 :: ts) r t n h
  rw [cpu_intensive_work] at h
  obtain ⟨j, hn, -, ht⟩ := burnLoop_spec S (t0 + d) ts 0 0 r t n h
  refine ⟨ht, ?_, hr⟩
  exact burnLoop_exit_bound S (t0 + d) B ts t0 0 0 r t n (by linarith) hB h

theorem burn_returns_after_deadline_spot :
    (0 : ℤ) + 2 ≤ 2 ∧ (2 : ℤ) ≤ 0 + 2 + 1 ∧ (1 : ℤ) = ((1 : ℕ) : ℤ) * 1 :=
  burn_returns_after_deadline 1 2 1 0 [1, 2] 1 2 1
    (by decide) (by decide) (by decide)

/-- C5: with a monotone clock, `cpu_intensive_work` with duration `0` has
deadline `t0 + 0`, the first loop-guard reading `t1 ≥ t0` already fails
`t1 < t0 + 0`, so the function returns at once with zero batches of busy
work performed — in particular with at most one. -/
theorem burn_zero_duration (S t0 t1 : α) (ts : List α) (h01 : t0 ≤ t1) :
    cpu_intensive_work S 0 (t0 :: t1 :: ts) = some (0, t1, 0) := by
  have hnl : ¬ t1 < t0 := not_lt.mpr h01
  simp [cpu_intensive_work, burnLoop, hnl]

theorem burn_zero_duration_spot :
    cpu_intensive_work (1 : ℤ) 0 [0, 0] = some (0, 0, 0) :=
  burn_zero_duration 1 0 0 [] (by decide)

/-- C9: the returned value of `cpu_intensive_work` is determined by the
number of executed batch passes alone: each pass adds the same fixed batch
sum `S` to an accumulator starting at `0`, so the result equals `n * S`,
and two runs (with any durations and clock readings) that execute the same
number `n` of batches return equal results. -/
theorem result_depends_only_on_batches
    (S d d' : α) (clock clock' : List α) (r r' t t' : α) (n : ℕ)
    (h : cpu_intensive_work S d clock = some (r, t, n))
    (h' : cpu_intensive_work S d' clock' = some (r', t', n)) :
    r = n * S ∧ r' = r := by
  have h1 := cpu_result_eq S d clock r t n h
  have h2 := cpu_result_eq S d' clock' r' t' n h'
  exact ⟨h1, h2.trans h1.symm⟩

theorem result_depends_only_on_batches_spot :
    (0 : ℤ) = ((0 : ℕ) : ℤ) * 1 ∧ (0 : ℤ) = 0 :=
  result_depends_only_on_batches 1 1 3 [0, 1] [0, 5] 0 0 1 5 0
    (by decide) (by decide)

theorem string_ne_of_head (s t : String)
    (h : s.data.head? ≠ t.data.head?) : s ≠ t := fun e => h (by rw [e])

theorem highLine_head (c : ℕ) : (highLine c).data.head? = some '\n' := by
  simp [highLine, String.data_append]

theorem lowLine_head (c : ℕ) : (lowLine c).data.head? = some '[' := by
  simp [lowLine, String.data_append]

theorem idleLine_head (c : ℕ) : (idleLine c).data.head? = some '[' := by
  simp [idleLine, String.data_append]

theorem highLine_ne_banner1 (c : ℕ) : highLine c ≠ bannerLine1 :=
  string_ne_of_head _ _ (by rw [highLine_head]; decide)

theorem highLine_ne_banner2 (c : ℕ) : highLine c ≠ bannerLine2 :=
  string_ne_of_head _ _ (by rw [highLine_head]; decide)

theorem lowLine_ne_banner1 (c : ℕ) : lowLine c ≠ bannerLine1 :=
  string_ne_of_head _ _ (by rw [lowLine_head]; decide)

theorem lowLine_ne_banner2 (c : ℕ) : lowLine c ≠ bannerLine2 :=
  string_ne_of_head _ _ (by rw [lowLine_head]; decide)

theorem idleNe_banner1 (c : ℕ) : idleLine c ≠ bannerLine1 :=
  string_ne_of_head _ _ (by rw [idleLine_head]; decide)

theorem idleNe_banner2 (c : ℕ) : idleLine c ≠ bannerLine2 :=
  string_ne_of_head _ _ (by rw [idleLine_head]; decide)

theorem statusLines_append (t1 t2 : List Event) :
    statusLines (t1 ++ t2) = statusLines t1 ++ statusLines t2 := by
  simp [statusLines]

theorem statusLines_bodyEvents (c : ℕ) :
    statusLines (bodyEvents c) = [highLine c, lowLine c, idleLine c] := by
  simp [statusLines, bodyEvents, highLine_ne_banner1 c, highLine_ne_banner2 c,
    lowLine_ne_banner1 c, lowLine_ne_banner2 c, idleNe_banner1 c,
    idleNe_banner2 c]

theorem statusLines_fullTrace (k : ℕ) :
    statusLines (fullTrace k) =
      (List.range k).flatMap
        (fun j => [highLine (j + 1), lowLine (j + 1), idleLine (j + 1)]) := by
  induction k with
  | zero => simp [fullTrace, statusLines]
  | succ k ih =>
    rw [fullTrace_succ, statusLines_append, ih, statusLines_bodyEvents]
    simp [List.range_succ]

theorem step_cycle (s : DriverState) :
    (step s).cycle = s.cycle ∨ (step s).cycle = s.cycle + 1 := by
  rcases s with ⟨pc, c, t⟩
  rcases pc with _|_|_|_|_|_|_|_|_|_|_|pc <;> simp [step]

/-- C2: every iteration of the driver loop of `main` performs, in this
exact order: increment the cycle counter (pc 2 → 3, trace unchanged),
print the HIGH CPU line, flush, run the busy-work phase for 5 seconds,
print the LOW CPU line, flush, sleep 5, print the IDLE line, flush,
sleep 5, and return to the loop head (pc 2) — the state after the
increment and the state after the full iteration are computed
explicitly. -/
theorem main_loop_order (k : ℕ) :
    run (2 + 10 * k + 1) = ⟨3, k + 1, fullTrace k⟩ ∧
    run (2 + 10 * k + 10) =
      ⟨2, k + 1, fullTrace k ++
        [.print (highLine (k + 1)), .flush, .burn 5,
         .print (lowLine (k + 1)), .flush, .sleep 5,
         .print (idleLine (k + 1)), .flush, .sleep 5]⟩ := by
  constructor
  · rw [run_succ, run_loop_head, step_eq_2]
  · have h : 2 + 10 * k + 10 = 10 + (2 + 10 * k) := by ring
    rw [run, h, Function.iterate_add_apply, ← run, run_loop_head, step_body]
    rfl

/-- C3: the cycle counter starts at 0, each step either preserves it or
increments it by exactly 1 (so it is non-negative — it lives in `ℕ` — and
never decremented or reset), at the loop head after `k` completed
iterations it equals `k` and the next iteration increments it to `k + 1`
before any status line of that iteration is printed (the trace is
unchanged by the increment step), and the first status line printed
carries cycle number 1. -/
theorem cycle_counter_invariant :
    (run 0).cycle = 0 ∧
    (∀ n, (run (n + 1)).cycle = (run n).cycle ∨
      (run (n + 1)).cycle = (run n).cycle + 1) ∧
    (∀ k, (run (2 + 10 * k)).cycle = k ∧
      run (2 + 10 * k + 1) = ⟨3, k + 1, fullTrace k⟩) ∧
    (run 4).trace =
      [.print bannerLine1, .print bannerLine2, .print (highLine 1)] := by
  refine ⟨rfl, ?_, ?_, ?_⟩
  · intro n
    rw [run_succ]
    exact step_cycle (run n)
  · intro k
    refine ⟨?_, ?_⟩
    · rw [run_loop_head]
    · rw [run_succ, run_loop_head, step_eq_2]
  · rfl

/-- C4: after `k` completed cycles, the status lines emitted (all prints
other than the two banner lines) are exactly, for each cycle `n = 1..k` in
order, the three lines HIGH CPU, LOW CPU, IDLE, all carrying cycle number
`n`. -/
theorem three_status_lines_per_cycle (k : ℕ) :
    statusLines (run (2 + 10 * k)).trace =
      (List.range k).flatMap
        (fun j => [highLine (j + 1), lowLine (j + 1), idleLine (j + 1)]) := by
  rw [run_loop_head]
  exact statusLines_fullTrace k

theorem flushedBody (c : ℕ) (buf : List String) (es : List Event) :
    flushedBeforeBlocking buf (bodyEvents c ++ es) =
      flushedBeforeBlocking [] es := by
  simp [bodyEvents, flushedBeforeBlocking]

theorem flushedBodies (js : List ℕ) (buf : List String) :
    flushedBeforeBlocking buf (js.flatMap (fun j => bodyEvents (j + 1))) =
      true := by
  induction js generalizing buf with
  | nil => rfl
  | cons j js ih => rw [List.flatMap_cons, flushedBody]; exact ih []

/-- C6: every status line printed by the driver is flushed before the next
blocking phase begins: walking the full event trace with an explicit
stdout buffer (prints buffer, `sys.stdout.flush()` empties), the buffer is
empty at every `burn` and every `sleep` event, for any number of completed
cycles. -/
theorem flush_before_blocking (k : ℕ) :
    flushedBeforeBlocking [] (fullTrace k) = true := by
  have h : fullTrace k =
      Event.print bannerLine1 :: Event.print bannerLine2 ::
        (List.range k).flatMap (fun j => bodyEvents (j + 1)) := rfl
  rw [h]
  simp only [flushedBeforeBlocking]
  exact flushedBodies (List.range k) _

theorem step_pc_le (s : DriverState) : (step s).pc ≤ 11 := by
  rcases s with ⟨pc, c, t⟩
  rcases pc with _|_|_|_|_|_|_|_|_|_|_|pc <;> simp [step]

theorem run_pc_le (n : ℕ) : (run n).pc ≤ 11 := by
  cases n with
  | zero => show (0 : ℕ) ≤ 11; decide
  | succ n => rw [run_succ]; exact step_pc_le (run n)

theorem exists_stmt (s : DriverState) (h : s.pc ≤ 11) : ∃ s', Stmt s s' := by
  rcases s with ⟨pc, c, t⟩
  rcases pc with _|_|_|_|_|_|_|_|_|_|_|pc
  · exact ⟨_, Stmt.banner1 c t⟩
  · exact ⟨_, Stmt.banner2 c t⟩
  · exact ⟨_, Stmt.incr c t⟩
  · exact ⟨_, Stmt.printHigh c t⟩
  · exact ⟨_, Stmt.flushHigh c t⟩
  · exact ⟨_, Stmt.burnHigh c t⟩
  · exact ⟨_, Stmt.printLow c t⟩
  · exact ⟨_, Stmt.flushLow c t⟩
  · exact ⟨_, Stmt.sleepLow c t⟩
  · exact ⟨_, Stmt.printIdle c t⟩
  · exact ⟨_, Stmt.flushIdle c t⟩
  · have h' : pc + 11 ≤ 11 := h
    obtain rfl : pc = 0 := by omega
    exact ⟨_, Stmt.sleepIdle c t⟩

/-- C7: `main` never returns: every state reachable by the driver has an
outgoing transition of the statement relation `Stmt` (which has no
constructor leaving the `while True` loop), and for every `k` the
`(k + 1)`-th iteration is indeed entered, its increment setting the
counter to `k + 1`. -/
theorem driver_never_terminates :
    (∀ s : DriverState, (∃ n, run n = s) → ∃ s', Stmt s s') ∧
    (∀ k, (run (2 + 10 * k + 1)).cycle = k + 1) := by
  constructor
  · rintro s ⟨n, rfl⟩
    exact exists_stmt (run n) (run_pc_le n)
  · intro k
    rw [run_succ, run_loop_head, step_eq_2]

theorem driver_never_terminates_spot :
    ∃ s', Stmt ⟨0, 0, []⟩ s' :=
  driver_never_terminates.1 ⟨0, 0, []⟩ ⟨0, rfl⟩

theorem allPrints_append (t1 t2 : List Event) :
    allPrints (t1 ++ t2) = allPrints t1 ++ allPrints t2 := by
  simp [allPrints]

theorem allPrints_bodyEvents (c : ℕ) :
    allPrints (bodyEvents c) = [highLine c, lowLine c, idleLine c] := by
  simp [allPrints, bodyEvents]

theorem allPrints_fullTrace (k : ℕ) :
    allPrints (fullTrace k) = bannerLine1 :: bannerLine2 ::
      (List.range k).flatMap
        (fun j => [highLine (j + 1), lowLine (j + 1), idleLine (j + 1)]) := by
  induction k with
  | zero => rfl
  | succ k ih =>
    rw [fullTrace_succ, allPrints_append, ih, allPrints_bodyEvents]
    simp [List.range_succ]

/-- C8: the busy-work call has no side effect beyond CPU and elapsed time:
in the driver, the step at the `cpu_intensive_work(5)` call site leaves the
cycle counter unchanged and appends only the (output-free) `burn` marker to
the trace, and over any number of completed cycles the strings printed are
exactly the two banners and the per-cycle status lines — nothing is
printed from inside the busy-work phase.  (`cpu_intensive_work` itself is a
pure function of the batch sum, the duration and the clock readings.) -/
theorem burn_has_no_side_effects :
    (∀ s : DriverState, s.pc = 5 →
      (step s).cycle = s.cycle ∧ (step s).trace = s.trace ++ [.burn 5]) ∧
    (∀ k, allPrints (fullTrace k) = bannerLine1 :: bannerLine2 ::
      (List.range k).flatMap
        (fun j => [highLine (j + 1), lowLine (j + 1), idleLine (j + 1)])) := by
  constructor
  · rintro ⟨pc, c, t⟩ h
    obtain rfl : pc = 5 := h
    exact ⟨rfl, rfl⟩
  · exact allPrints_fullTrace

theorem burn_has_no_side_effects_spot :
    (step ⟨5, 7, []⟩).cycle = (⟨5, 7, ([] : List Event)⟩ : DriverState).cycle ∧
    (step ⟨5, 7, []⟩).trace =
      (⟨5, 7, ([] : List Event)⟩ : DriverState).trace ++ [.burn 5] :=
  burn_has_no_side_effects.1 ⟨5, 7, []⟩ rfl

theorem banner1_ne_banner2 : bannerLine1 ≠ bannerLine2 := by decide

theorem count_banner1_body (c : ℕ) :
    (bodyEvents c).count (Event.print bannerLine1) = 0 := by
  simp [bodyEvents, List.count_cons, (highLine_ne_banner1 c).symm,
    (lowLine_ne_banner1 c).symm, (idleNe_banner1 c).symm]

theorem count_banner2_body (c : ℕ) :
    (bodyEvents c).count (Event.print bannerLine2) = 0 := by
  simp [bodyEvents, List.count_cons, (highLine_ne_banner2 c).symm,
    (lowLine_ne_banner2 c).symm, (idleNe_banner2 c).symm]

theorem count_banner1_bodies (js : List ℕ) :
    (js.flatMap (fun j => bodyEvents (j + 1))).count
      (Event.print bannerLine1) = 0 := by
  induction js with
  | nil => rfl
  | cons j js ih =>
    rw [List.flatMap_cons, List.count_append, ih, count_banner1_body]

theorem count_banner2_bodies (js : List ℕ) :
    (js.flatMap (fun j => bodyEvents (j + 1))).count
      (Event.print bannerLine2) = 0 := by
  induction js with
  | nil => rfl
  | cons j js ih =>
    rw [List.flatMap_cons, List.count_append, ih, count_banner2_body]

/-- C10: on startup, before the HIGH CPU line of the first cycle, `main` prints
exactly two banner lines — the started message and the 50-character `=`
separator, in that order at the very head of the trace — and each of these
two lines occurs exactly once in the trace after any number of completed
cycles. -/
theorem banner_emitted_once (k : ℕ) :
    (fullTrace k).take 2 = [.print bannerLine1, .print bannerLine2] ∧
    bannerLine2.length = 50 ∧
    (fullTrace k).count (.print bannerLine1) = 1 ∧
    (fullTrace k).count (.print bannerLine2) = 1 := by
  have h : fullTrace k =
      Event.print bannerLine1 :: Event.print bannerLine2 ::
        (List.range k).flatMap (fun j => bodyEvents (j + 1)) := rfl
  refine ⟨rfl, by decide, ?_, ?_⟩
  · rw [h]
    simp [List.count_cons, count_banner1_bodies, banner1_ne_banner2.symm]
  · rw [h]
    simp [List.count_cons, count_banner2_bodies, banner1_ne_banner2]

end CpuLoadTest
